import Mathlib

/-!
Shallow embedding of the asynchronous IOCP TCP client
(`src/IOCP - NewThreadPool/Client/Client.cpp`).

Each member function of `Client` is translated into a Lean function over an
explicit `Client` record.  Outcomes of OS calls (`ConnectEx`, `WSARecv`,
`WSASend`, `setsockopt`, socket creation, name resolution) are inputs, since
they are decided by the environment.  Every observable effect of a function —
pool acquisition/release of an `IOEvent`, `StartThreadpoolIo` /
`CancelThreadpoolIo`, handler invocations, `PostRemoveClient`, error logging,
socket teardown — is recorded in an ordered `List Action` trace, so that
claims about which handlers run, in what order, and how operation contexts
are accounted for can be stated and decided.

`assert(...)` statements in the source are modelled as definedness: a
function whose assert would fire returns `none` (the debug build aborts
there, so no further transition happens).
-/

namespace IOCP

/-- Connection states of `Client::m_State` (WAIT is the spec's Idle). -/
inductive CState
  | WAIT
  | CREATED
  | CONNECTED
  | CLOSED
deriving DecidableEq, Repr

/-- `IOEvent::Type`: the kind of an operation context. -/
inductive EvType
  | CONNECT
  | RECV
  | SEND
deriving DecidableEq, Repr

/-- Outcome of starting one asynchronous OS call (`ConnectEx`, `WSARecv`,
`WSASend`): it either completes synchronously with success, returns an error
equal to `ERROR_IO_PENDING`, or fails synchronously with some other error. -/
inductive SyncOutcome
  | syncSuccess
  | pending
  | syncFail
deriving DecidableEq, Repr

/-- Observable effects, recorded in program order. -/
inductive Action
  | acquire (t : EvType)    -- IOEvent::Create (pool acquire)
  | release (t : EvType)    -- IOEvent::Destroy (pool release)
  | startIo                 -- StartThreadpoolIo
  | cancelIo                -- CancelThreadpoolIo
  | connectEx (i : Nat)     -- Network::ConnectEx on address candidate i
  | wsaRecv                 -- WSARecv call
  | wsaSend                 -- WSASend call
  | sendCopy (size : Nat)   -- memcpy of size bytes into m_sendBuffer
  | nulWrite (i : Nat)      -- m_recvBuffer[i] = NUL in OnRecv
  | onConnectH              -- OnConnect handler entered
  | onRecvH (n : Nat)       -- OnRecv handler entered
  | onSendH (n : Nat)       -- OnSend handler entered
  | onCloseH                -- OnClose handler entered
  | postRemove              -- ClientMan::PostRemoveClient
  | logError                -- ERROR_CODE logging
  | closeSocket             -- Network::CloseSocket
  | cancelIoEx              -- CancelIoEx
  | shutdownCall            -- shutdown(m_Socket, SD_SEND)
deriving DecidableEq, Repr

/-- The `Client` object.  `socketValid` models `m_Socket != INVALID_SOCKET`;
`cursor`/`nCand` model the position of `m_info` inside the resolved address
list `m_infoList` of length `nCand` (`cursor = nCand` means `m_info == NULL`). -/
structure Client where
  state : CState
  socketValid : Bool
  cursor : Nat
  nCand : Nat
deriving DecidableEq, Repr

/-- Result of running one member function: the updated client, the trace of
observable effects, the boolean return value (`true` for `void` functions),
and whether an operation context is still outstanding, i.e. a completion
callback for it remains scheduled. -/
structure OpResult where
  client : Client
  trace : List Action
  ret : Bool
  outstanding : Bool
  writes : List Nat := []
deriving DecidableEq, Repr

/-- Modelled from the spec: the send/receive buffer capacities are declared in
`Client.h`, which is not among the sources; the spec fixes only that
`recvBuffer` and `sendBuffer` are fixed-capacity byte buffers ("a fixed
maximum, e.g. a few KB").  The exact value is irrelevant to every claim. -/
def MAX_SEND_BUFFER : Nat := 1024

/-- Modelled from the spec: capacity of `m_recvBuffer`, declared in the missing
`Client.h`.  Per the spec's data model the receive descriptor in `PostReceive`
exposes the whole buffer, so the capacity equals the constant the descriptor
length is set to. -/
def MAX_RECV_BUFFER : Nat := 1024

/-- The receive length `PostReceive` advertises to the OS:
`recvBufferDescriptor.len = Client::MAX_RECV_BUFFER`. -/
def advertisedRecvLen : Nat := MAX_RECV_BUFFER

/-- In-bounds predicate for the NUL-terminator write `m_recvBuffer[i]`
performed by `OnRecv`. -/
def recvWriteInBounds (i : Nat) : Prop := i < MAX_RECV_BUFFER

/-- `Client::PostReceive`.  `ro` is the synchronous outcome of the `WSARecv`
call.  The `assert(m_State == CREATED || m_State == CONNECTED)` makes the
function undefined in state WAIT. -/
def PostReceive (c : Client) (ro : SyncOutcome) : Option OpResult :=
  if c.state = CState.CLOSED then
    some { client := c, trace := [Action.postRemove], ret := true, outstanding := false }
  else if c.state = CState.WAIT then
    none
  else if ro = SyncOutcome.syncFail then
    some { client := c,
           trace := [Action.acquire EvType.RECV, Action.startIo, Action.wsaRecv,
                     Action.cancelIo, Action.logError, Action.postRemove],
           ret := true, outstanding := false }
  else
    some { client := if c.state = CState.CREATED then { c with state := CState.CONNECTED } else c,
           trace := [Action.acquire EvType.RECV, Action.startIo, Action.wsaRecv],
           ret := true, outstanding := true }

/-- `Client::OnConnect`: sets `SO_UPDATE_CONNECT_CONTEXT` (outcome `so`); on
success posts the first receive, on failure only logs. -/
def OnConnect (c : Client) (so : Bool) (ro : SyncOutcome) : Option (Client × List Action) :=
  if so then
    (PostReceive c ro).map fun r => (r.client, Action.onConnectH :: r.trace)
  else
    some (c, [Action.onConnectH, Action.logError])

/-- `Client::OnRecv`: writes the NUL terminator `m_recvBuffer[n] = 0`, logs,
and immediately re-posts a receive. -/
def OnRecv (c : Client) (n : Nat) (ro : SyncOutcome) : Option (Client × List Action) :=
  (PostReceive c ro).map fun r => (r.client, Action.onRecvH n :: Action.nulWrite n :: r.trace)

/-- `Client::OnClose`: logs only (the `Destroy()` call is commented out); no
field of the client changes. -/
def OnClose (c : Client) : Client × List Action := (c, [Action.onCloseH])

/-- The candidate loop of `Client::PostConnect`, one entry of `outs` per
remaining address candidate, `i` the index of the current candidate
(`m_info`).  Per candidate: `StartThreadpoolIo`, then `ConnectEx`; a
synchronous failure other than pending cancels the notification, logs and
advances; pending returns `true` leaving the context outstanding; synchronous
success runs `OnConnect`, destroys the context and returns `true`.  An
exhausted list destroys the context and returns `false`. -/
def connectLoop (so : Bool) (ro : SyncOutcome) (c : Client) :
    List SyncOutcome → Nat → Option OpResult
  | [], i =>
    some { client := { c with cursor := i }, trace := [Action.release EvType.CONNECT],
           ret := false, outstanding := false }
  | o :: rest, i =>
    match o with
    | SyncOutcome.syncFail =>
      (connectLoop so ro c rest (i + 1)).map fun r =>
        { r with trace := Action.startIo :: Action.connectEx i :: Action.cancelIo ::
                          Action.logError :: r.trace }
    | SyncOutcome.pending =>
      some { client := { c with cursor := i },
             trace := [Action.startIo, Action.connectEx i],
             ret := true, outstanding := true }
    | SyncOutcome.syncSuccess =>
      (OnConnect { c with cursor := i } so ro).map fun pr =>
        { client := pr.1,
          trace := Action.startIo :: Action.connectEx i :: pr.2 ++ [Action.release EvType.CONNECT],
          ret := true, outstanding := false }

/-- `Client::PostConnect`.  `resolveOk` is the outcome of `getaddrinfo`,
`outs` the synchronous outcome of `ConnectEx` on each resolved candidate.
Requires state CREATED (else returns `false`); `assert(m_Socket !=
INVALID_SOCKET)` makes it undefined without a socket. -/
def PostConnect (c : Client) (resolveOk : Bool) (outs : List SyncOutcome)
    (so : Bool) (ro : SyncOutcome) : Option OpResult :=
  if c.state ≠ CState.CREATED then
    some { client := c, trace := [], ret := false, outstanding := false }
  else if ¬ c.socketValid then
    none
  else if ¬ resolveOk then
    some { client := c, trace := [Action.logError], ret := false, outstanding := false }
  else
    (connectLoop so ro { c with cursor := 0, nCand := outs.length } outs 0).map fun r =>
      { r with trace := Action.acquire EvType.CONNECT :: r.trace }

/-- `Client::PostSend`: no-op unless CONNECTED; copies `size` caller bytes
into `m_sendBuffer` with no capacity guard (`writes` lists the indices the
`memcpy` writes), then issues `WSASend` with outcome `out`. -/
def PostSend (c : Client) (size : Nat) (out : SyncOutcome) : OpResult :=
  if c.state ≠ CState.CONNECTED then
    { client := c, trace := [], ret := true, outstanding := false }
  else
    { client := c,
      trace := [Action.sendCopy size, Action.acquire EvType.SEND, Action.startIo,
                Action.wsaSend] ++
        (if out = SyncOutcome.syncFail then
          [Action.cancelIo, Action.logError, Action.postRemove]
        else []),
      ret := true,
      outstanding := out ≠ SyncOutcome.syncFail,
      writes := List.range size }

/-- Environment outcomes consumed by `Client::Create`. -/
structure CreateEnv where
  socketOk : Bool
  sockoptOk : Bool
  tpioOk : Bool
deriving DecidableEq, Repr

/-- `Client::Create`: asserts no socket and state WAIT; creates the socket,
sets `SO_REUSEADDR`, creates the threadpool I/O association; only if all
three succeed does the state become CREATED.  On `setsockopt` or
`CreateThreadpoolIo` failure the function returns `false` with the
already-created socket still stored in `m_Socket`. -/
def Create (c : Client) (e : CreateEnv) : Option OpResult :=
  if c.socketValid then none
  else if c.state ≠ CState.WAIT then none
  else if ¬ e.socketOk then
    some { client := c, trace := [], ret := false, outstanding := false }
  else if ¬ e.sockoptOk then
    some { client := { c with socketValid := true }, trace := [Action.logError],
           ret := false, outstanding := false }
  else if ¬ e.tpioOk then
    some { client := { c with socketValid := true }, trace := [Action.logError],
           ret := false, outstanding := false }
  else
    some { client := { c with socketValid := true, state := CState.CREATED },
           trace := [], ret := true, outstanding := false }

/-- `Client::Close`: idempotent; if not CLOSED, set CLOSED, close the socket,
cancel outstanding I/O, drop the handle. -/
def Close (c : Client) : OpResult :=
  if c.state ≠ CState.CLOSED then
    { client := { c with state := CState.CLOSED, socketValid := false },
      trace := [Action.closeSocket, Action.cancelIoEx], ret := true, outstanding := false }
  else
    { client := c, trace := [], ret := true, outstanding := false }

/-- `Client::Shutdown`: requires CONNECTED (else `false`); asserts a valid
socket; half-closes the socket, `ok` the outcome of `shutdown`. -/
def Shutdown (c : Client) (ok : Bool) : Option OpResult :=
  if c.state ≠ CState.CONNECTED then
    some { client := c, trace := [], ret := false, outstanding := false }
  else if ¬ c.socketValid then
    none
  else if ok then
    some { client := c, trace := [Action.shutdownCall], ret := true, outstanding := false }
  else
    some { client := c, trace := [Action.shutdownCall, Action.logError],
           ret := false, outstanding := false }

/-- Environment outcomes consumed by the completion dispatcher: the Registry's
liveness answer, the synchronous outcome of the retry `ConnectEx`, and the
outcomes `OnConnect`/`OnRecv` need for the operations they re-post. -/
structure DispatchEnv where
  alive : Bool
  retryConnect : SyncOutcome
  sockoptOk : Bool
  recvOut : SyncOutcome
deriving DecidableEq, Repr

/-- `Client::IoCompletionCallback`: the completion dispatcher.  `t` is the
type of the completed operation context, `ioSuccess` whether `IoResult ==
ERROR_SUCCESS`, `bytes` the bytes transferred.  A `CONNECT` failure
dereferences `m_info->ai_next`, which is undefined when `m_info` is already
NULL (`cursor ≥ nCand`). -/
def IoCompletionCallback (c : Client) (t : EvType) (ioSuccess : Bool) (bytes : Nat)
    (env : DispatchEnv) : Option OpResult :=
  if ¬ env.alive then
    some { client := c, trace := [Action.release t], ret := true, outstanding := false }
  else if ioSuccess then
    if t = EvType.CONNECT then
      (OnConnect c env.sockoptOk env.recvOut).map fun pr =>
        { client := pr.1, trace := pr.2 ++ [Action.release EvType.CONNECT],
          ret := true, outstanding := false }
    else if t = EvType.RECV then
      if bytes > 0 ∧ c.state ≠ CState.CLOSED then
        (OnRecv c bytes env.recvOut).map fun pr =>
          { client := pr.1, trace := pr.2 ++ [Action.release EvType.RECV],
            ret := true, outstanding := false }
      else
        some { client := (OnClose c).1,
               trace := (OnClose c).2 ++ [Action.postRemove, Action.release EvType.RECV],
               ret := true, outstanding := false }
    else
      some { client := c, trace := [Action.onSendH bytes, Action.release EvType.SEND],
             ret := true, outstanding := false }
  else
    if t = EvType.CONNECT then
      if c.cursor < c.nCand then
        let c' : Client := { c with cursor := c.cursor + 1 }
        if c'.cursor < c.nCand then
          if env.retryConnect = SyncOutcome.syncSuccess then
            (OnConnect c' env.sockoptOk env.recvOut).map fun pr =>
              { client := pr.1,
                trace := Action.logError :: Action.connectEx c'.cursor ::
                         pr.2 ++ [Action.release EvType.CONNECT],
                ret := true, outstanding := false }
          else if env.retryConnect = SyncOutcome.pending then
            some { client := c',
                   trace := [Action.logError, Action.connectEx c'.cursor, Action.startIo],
                   ret := true, outstanding := true }
          else
            some { client := c',
                   trace := [Action.logError, Action.connectEx c'.cursor, Action.logError,
                             Action.postRemove, Action.release EvType.CONNECT],
                   ret := true, outstanding := false }
        else
          some { client := c', trace := [Action.logError, Action.postRemove,
                                         Action.release EvType.CONNECT],
                 ret := true, outstanding := false }
      else
        none
    else
      some { client := c, trace := [Action.logError, Action.postRemove, Action.release t],
             ret := true, outstanding := false }

/-- One externally triggerable step: a public member-function call or one
completion dispatch. -/
inductive Op
  | create (e : CreateEnv)
  | postConnect (resolveOk : Bool) (outs : List SyncOutcome) (so : Bool) (ro : SyncOutcome)
  | postReceive (ro : SyncOutcome)
  | postSend (size : Nat) (out : SyncOutcome)
  | shutdownOp (ok : Bool)
  | close
  | dispatch (t : EvType) (ioSuccess : Bool) (bytes : Nat) (env : DispatchEnv)
deriving DecidableEq, Repr

/-- Run a single operation, returning its full result. -/
def stepT (c : Client) : Op → Option OpResult
  | Op.create e => Create c e
  | Op.postConnect rok outs so ro => PostConnect c rok outs so ro
  | Op.postReceive ro => PostReceive c ro
  | Op.postSend n out => some (PostSend c n out)
  | Op.shutdownOp ok => Shutdown c ok
  | Op.close => some (Close c)
  | Op.dispatch t s b env => IoCompletionCallback c t s b env

/-- Run a single operation, keeping only the client. -/
def step (c : Client) (o : Op) : Option Client := (stepT c o).map OpResult.client

/-- Run a sequence of operations. -/
def runOps (c : Client) : List Op → Option Client
  | [] => some c
  | o :: rest => (step c o).bind fun c' => runOps c' rest

/-- Numeric rank of a state along Idle → Created → Connected → Closed. -/
def ord : CState → Nat
  | CState.WAIT => 0
  | CState.CREATED => 1
  | CState.CONNECTED => 2
  | CState.CLOSED => 3

/-- Candidate index of a connect attempt, if the action is one. -/
def attemptIdx : Action → Option Nat
  | Action.connectEx i => some i
  | _ => none

/-- Candidate indices attempted by the trace, in order. -/
def connectAttempts (tr : List Action) : List Nat := tr.filterMap attemptIdx

theorem connectAttempts_append (x y : List Action) :
    connectAttempts (x ++ y) = connectAttempts x ++ connectAttempts y := by
  simp [connectAttempts, List.filterMap_append]

/-- Number of actions in the trace satisfying `p`. -/
def countA (p : Action → Bool) (tr : List Action) : Nat := (tr.filter p).length

theorem countA_nil (p : Action → Bool) : countA p [] = 0 := rfl

theorem countA_cons (p : Action → Bool) (a : Action) (l : List Action) :
    countA p (a :: l) = (if p a then 1 else 0) + countA p l := by
  simp only [countA, List.filter_cons]
  split <;> simp [Nat.add_comm]

theorem countA_append (p : Action → Bool) (a b : List Action) :
    countA p (a ++ b) = countA p a + countA p b := by
  simp [countA, List.filter_append]

/-- Recognizes a pool acquisition of a context of type `t`. -/
def isAcquire (t : EvType) : Action → Bool
  | Action.acquire s => decide (s = t)
  | _ => false

/-- Recognizes a pool release of a context of type `t`. -/
def isReleaseOf (t : EvType) : Action → Bool
  | Action.release s => decide (s = t)
  | _ => false

/-- Recognizes a pool release of a context of any type. -/
def isReleaseAny : Action → Bool
  | Action.release _ => true
  | _ => false

/-- Recognizes an `OnConnect` handler invocation. -/
def isOnConnect : Action → Bool
  | Action.onConnectH => true
  | _ => false

/-- Recognizes a `CancelThreadpoolIo` call. -/
def isCancelIo : Action → Bool
  | Action.cancelIo => true
  | _ => false

/-- Number of pool acquisitions of contexts of type `t` in the trace. -/
def countAcquire (t : EvType) (tr : List Action) : Nat := countA (isAcquire t) tr

/-- Number of pool releases of contexts of type `t` in the trace. -/
def countRelease (t : EvType) (tr : List Action) : Nat := countA (isReleaseOf t) tr

/-- Number of pool releases of contexts of any type in the trace. -/
def countReleaseAll (tr : List Action) : Nat := countA isReleaseAny tr

/-- Number of `OnConnect` handler invocations in the trace. -/
def countOnConnect (tr : List Action) : Nat := countA isOnConnect tr

/-- Number of `CancelThreadpoolIo` calls in the trace. -/
def countCancelIo (tr : List Action) : Nat := countA isCancelIo tr

/-- Trace produced by `k` consecutive synchronously failing connect
candidates starting at candidate index `i`. -/
def failTrace (i : Nat) : Nat → List Action
  | 0 => []
  | k + 1 =>
    Action.startIo :: Action.connectEx i :: Action.cancelIo :: Action.logError ::
      failTrace (i + 1) k

theorem connectLoop_cons_fail (so : Bool) (ro : SyncOutcome) (c : Client)
    (rest : List SyncOutcome) (i : Nat) :
    connectLoop so ro c (SyncOutcome.syncFail :: rest) i =
      (connectLoop so ro c rest (i + 1)).map fun r =>
        { r with trace := Action.startIo :: Action.connectEx i :: Action.cancelIo ::
                          Action.logError :: r.trace } := rfl

theorem connectLoop_replicate (so : Bool) (ro : SyncOutcome) (c : Client)
    (k : Nat) (i : Nat) (L : List SyncOutcome) :
    connectLoop so ro c (List.replicate k SyncOutcome.syncFail ++ L) i =
      (connectLoop so ro c L (i + k)).map fun r =>
        { r with trace := failTrace i k ++ r.trace } := by
  induction k generalizing i with
  | zero =>
    simp only [List.replicate, List.nil_append, Nat.add_zero, failTrace]
    cases connectLoop so ro c L i with
    | none => rfl
    | some r => rfl
  | succ k ih =>
    have hik : i + 1 + k = i + (k + 1) := by omega
    rw [List.replicate_succ, List.cons_append, connectLoop_cons_fail, ih (i + 1), hik,
      Option.map_map]
    cases connectLoop so ro c L (i + (k + 1)) with
    | none => rfl
    | some r => simp [Function.comp, failTrace]

theorem connectLoop_allFail (so : Bool) (ro : SyncOutcome) (c : Client) (n i : Nat) :
    connectLoop so ro c (List.replicate n SyncOutcome.syncFail) i =
      some { client := { c with cursor := i + n },
             trace := failTrace i n ++ [Action.release EvType.CONNECT],
             ret := false, outstanding := false } := by
  have h := connectLoop_replicate so ro c n i []
  rw [List.append_nil] at h
  rw [h]
  rfl

theorem connectLoop_firstPending (so : Bool) (ro : SyncOutcome) (c : Client)
    (k i : Nat) (rest : List SyncOutcome) :
    connectLoop so ro c
        (List.replicate k SyncOutcome.syncFail ++ SyncOutcome.pending :: rest) i =
      some { client := { c with cursor := i + k },
             trace := failTrace i k ++ [Action.startIo, Action.connectEx (i + k)],
             ret := true, outstanding := true } := by
  rw [connectLoop_replicate]
  rfl

theorem connectLoop_firstSuccess (so : Bool) (ro : SyncOutcome) (c : Client)
    (k i : Nat) (rest : List SyncOutcome) :
    connectLoop so ro c
        (List.replicate k SyncOutcome.syncFail ++ SyncOutcome.syncSuccess :: rest) i =
      (OnConnect { c with cursor := i + k } so ro).map fun pr =>
        { client := pr.1,
          trace := failTrace i k ++ Action.startIo :: Action.connectEx (i + k) ::
                   pr.2 ++ [Action.release EvType.CONNECT],
          ret := true, outstanding := false } := by
  rw [connectLoop_replicate]
  simp only [connectLoop, Option.map_map]
  cases OnConnect { c with cursor := i + k } so ro with
  | none => rfl
  | some pr => simp [Function.comp]

theorem failTrace_attempts (i k : Nat) :
    connectAttempts (failTrace i k) = List.range' i k := by
  induction k generalizing i with
  | zero => rfl
  | succ k ih =>
    simp only [failTrace, connectAttempts, List.filterMap_cons, List.range'_succ,
      attemptIdx] at ih ⊢
    simp [ih (i + 1)]

theorem failTrace_cRelease (t : EvType) (i k : Nat) :
    countA (isReleaseOf t) (failTrace i k) = 0 := by
  induction k generalizing i with
  | zero => rfl
  | succ k ih => simp [failTrace, countA_cons, isReleaseOf, ih (i + 1)]

theorem failTrace_cReleaseAll (i k : Nat) :
    countA isReleaseAny (failTrace i k) = 0 := by
  induction k generalizing i with
  | zero => rfl
  | succ k ih => simp [failTrace, countA_cons, isReleaseAny, ih (i + 1)]

theorem failTrace_cAcquire (t : EvType) (i k : Nat) :
    countA (isAcquire t) (failTrace i k) = 0 := by
  induction k generalizing i with
  | zero => rfl
  | succ k ih => simp [failTrace, countA_cons, isAcquire, ih (i + 1)]

theorem failTrace_cOnConnect (i k : Nat) :
    countA isOnConnect (failTrace i k) = 0 := by
  induction k generalizing i with
  | zero => rfl
  | succ k ih => simp [failTrace, countA_cons, isOnConnect, ih (i + 1)]

theorem failTrace_cCancelIo (i k : Nat) :
    countA isCancelIo (failTrace i k) = k := by
  induction k generalizing i with
  | zero => rfl
  | succ k ih => simp [failTrace, countA_cons, isCancelIo, ih (i + 1), Nat.add_comm]

/-- In state CREATED, `OnConnect` is defined, runs the connect-success handler
exactly once, performs no connect attempt, and neither acquires nor releases
a CONNECT context; the client ends CREATED or CONNECTED. -/
theorem OnConnect_created (c : Client) (so : Bool) (ro : SyncOutcome)
    (h : c.state = CState.CREATED) :
    ∃ pr, OnConnect c so ro = some pr ∧
      countOnConnect pr.2 = 1 ∧ countReleaseAll pr.2 = 0 ∧
      countAcquire EvType.CONNECT pr.2 = 0 ∧ connectAttempts pr.2 = [] ∧
      countRelease EvType.CONNECT pr.2 = 0 ∧
      (pr.1.state = CState.CREATED ∨ pr.1.state = CState.CONNECTED) := by
  cases so with
  | false =>
    refine ⟨(c, [Action.onConnectH, Action.logError]), rfl, ?_, ?_, ?_, ?_, ?_, Or.inl h⟩ <;>
      rfl
  | true =>
    cases ro with
    | syncFail =>
      refine ⟨(c, [Action.onConnectH, Action.acquire EvType.RECV, Action.startIo,
          Action.wsaRecv, Action.cancelIo, Action.logError, Action.postRemove]),
        by simp [OnConnect, PostReceive, h], ?_, ?_, ?_, ?_, ?_, Or.inl h⟩ <;> rfl
    | pending =>
      refine ⟨({ c with state := CState.CONNECTED },
          [Action.onConnectH, Action.acquire EvType.RECV, Action.startIo, Action.wsaRecv]),
        by simp [OnConnect, PostReceive, h], ?_, ?_, ?_, ?_, ?_, Or.inr rfl⟩ <;> rfl
    | syncSuccess =>
      refine ⟨({ c with state := CState.CONNECTED },
          [Action.onConnectH, Action.acquire EvType.RECV, Action.startIo, Action.wsaRecv]),
        by simp [OnConnect, PostReceive, h], ?_, ?_, ?_, ?_, ?_, Or.inr rfl⟩ <;> rfl

/-- With state CREATED and a valid socket, `PostConnect` on a successful
resolution acquires one CONNECT context and runs the candidate loop. -/
theorem PostConnect_eq (c : Client) (outs : List SyncOutcome) (so : Bool) (ro : SyncOutcome)
    (hst : c.state = CState.CREATED) (hsv : c.socketValid = true) :
    PostConnect c true outs so ro =
      (connectLoop so ro { c with cursor := 0, nCand := outs.length } outs 0).map fun r =>
        { r with trace := Action.acquire EvType.CONNECT :: r.trace } := by
  simp [PostConnect, hst, hsv]

/-- C3: given state Created and N resolved candidates, `PostConnect` attempts
candidates in order from index 0.  If all N fail synchronously it cancels the
armed notification after each failure, releases the context exactly once,
never runs the connect-success handler, returns failure, and the state stays
Created.  If the first non-failing candidate `k` goes pending it returns
success after attempts 0..k with the context still outstanding and not
released.  If candidate `k` completes synchronously-successfully it returns
success after attempts 0..k, runs the connect-success handler exactly once
and releases the context exactly once. -/
theorem c3_connect_retry (c : Client) (so : Bool) (ro : SyncOutcome)
    (hst : c.state = CState.CREATED) (hsv : c.socketValid = true) :
    (∀ n, ∃ r, PostConnect c true (List.replicate n SyncOutcome.syncFail) so ro = some r ∧
       r.ret = false ∧ connectAttempts r.trace = List.range n ∧
       countAcquire EvType.CONNECT r.trace = 1 ∧ countRelease EvType.CONNECT r.trace = 1 ∧
       countCancelIo r.trace = n ∧ countOnConnect r.trace = 0 ∧
       r.client.state = CState.CREATED ∧ r.outstanding = false) ∧
    (∀ k rest, ∃ r,
       PostConnect c true
           (List.replicate k SyncOutcome.syncFail ++ SyncOutcome.pending :: rest) so ro =
         some r ∧
       r.ret = true ∧ connectAttempts r.trace = List.range (k + 1) ∧
       countAcquire EvType.CONNECT r.trace = 1 ∧ countReleaseAll r.trace = 0 ∧
       countCancelIo r.trace = k ∧ countOnConnect r.trace = 0 ∧ r.outstanding = true) ∧
    (∀ k rest, ∃ r,
       PostConnect c true
           (List.replicate k SyncOutcome.syncFail ++ SyncOutcome.syncSuccess :: rest) so ro =
         some r ∧
       r.ret = true ∧ connectAttempts r.trace = List.range (k + 1) ∧
       countAcquire EvType.CONNECT r.trace = 1 ∧ countRelease EvType.CONNECT r.trace = 1 ∧
       countOnConnect r.trace = 1 ∧ r.outstanding = false) := by
  refine ⟨?_, ?_, ?_⟩
  · intro n
    have heq : PostConnect c true (List.replicate n SyncOutcome.syncFail) so ro =
        some { client := { c with
                           cursor := 0 + n,
                           nCand := (List.replicate n SyncOutcome.syncFail).length },
               trace := Action.acquire EvType.CONNECT ::
                        (failTrace 0 n ++ [Action.release EvType.CONNECT]),
               ret := false, outstanding := false } := by
      rw [PostConnect_eq c _ so ro hst hsv, connectLoop_allFail]
      rfl
    refine ⟨_, heq, rfl, ?_, ?_, ?_, ?_, ?_, hst, rfl⟩
    · show connectAttempts _ = _
      rw [show (Action.acquire EvType.CONNECT ::
            (failTrace 0 n ++ [Action.release EvType.CONNECT])) =
          [Action.acquire EvType.CONNECT] ++ failTrace 0 n ++ [Action.release EvType.CONNECT]
          from rfl]
      rw [connectAttempts_append, connectAttempts_append, failTrace_attempts,
        List.range_eq_range']
      simp [connectAttempts, attemptIdx]
    · simp [countAcquire, countA_cons, countA_append, countA_nil, isAcquire, failTrace_cAcquire]
    · simp [countRelease, countA_cons, countA_append, countA_nil, isReleaseOf, failTrace_cRelease]
    · simp [countCancelIo, countA_cons, countA_append, countA_nil, isCancelIo, failTrace_cCancelIo]
    · simp [countOnConnect, countA_cons, countA_append, countA_nil, isOnConnect, failTrace_cOnConnect]
  · intro k rest
    have heq : PostConnect c true
        (List.replicate k SyncOutcome.syncFail ++ SyncOutcome.pending :: rest) so ro =
        some { client := { c with
                           cursor := 0 + k,
                           nCand := (List.replicate k SyncOutcome.syncFail ++
                                     SyncOutcome.pending :: rest).length },
               trace := Action.acquire EvType.CONNECT ::
                        (failTrace 0 k ++ [Action.startIo, Action.connectEx (0 + k)]),
               ret := true, outstanding := true } := by
      rw [PostConnect_eq c _ so ro hst hsv, connectLoop_firstPending]
      rfl
    refine ⟨_, heq, rfl, ?_, ?_, ?_, ?_, ?_, rfl⟩
    · show connectAttempts _ = _
      rw [show (Action.acquire EvType.CONNECT ::
            (failTrace 0 k ++ [Action.startIo, Action.connectEx (0 + k)])) =
          [Action.acquire EvType.CONNECT] ++ failTrace 0 k ++
            [Action.startIo, Action.connectEx (0 + k)] from rfl]
      rw [connectAttempts_append, connectAttempts_append, failTrace_attempts,
        List.range_eq_range']
      simp [connectAttempts, attemptIdx, List.range'_concat]
    · simp [countAcquire, countA_cons, countA_append, countA_nil, isAcquire, failTrace_cAcquire]
    · simp [countReleaseAll, countA_cons, countA_append, countA_nil, isReleaseAny, failTrace_cReleaseAll]
    · simp [countCancelIo, countA_cons, countA_append, countA_nil, isCancelIo, failTrace_cCancelIo]
    · simp [countOnConnect, countA_cons, countA_append, countA_nil, isOnConnect, failTrace_cOnConnect]
  · intro k rest
    obtain ⟨pr, hpr, h1, h2, h3, h4, h5, -⟩ :=
      OnConnect_created
        { c with
          cursor := 0 + k,
          nCand := (List.replicate k SyncOutcome.syncFail ++
                    SyncOutcome.syncSuccess :: rest).length } so ro hst
    have heq : PostConnect c true
        (List.replicate k SyncOutcome.syncFail ++ SyncOutcome.syncSuccess :: rest) so ro =
        some { client := pr.1,
               trace := Action.acquire EvType.CONNECT ::
                        (failTrace 0 k ++ Action.startIo :: Action.connectEx (0 + k) ::
                         pr.2 ++ [Action.release EvType.CONNECT]),
               ret := true, outstanding := false } := by
      rw [PostConnect_eq c _ so ro hst hsv, connectLoop_firstSuccess, hpr]
      rfl
    refine ⟨_, heq, rfl, ?_, ?_, ?_, ?_, rfl⟩
    · show connectAttempts _ = _
      have hf := failTrace_attempts 0 k
      have h4f : List.filterMap attemptIdx pr.2 = [] := h4
      simp only [connectAttempts] at hf ⊢
      simp [List.filterMap_cons, List.filterMap_append, attemptIdx, hf, h4f,
        List.range_eq_range', List.range'_concat]
    · simp only [countAcquire] at h3 ⊢
      simp [countA_cons, countA_append, countA_nil, isAcquire, failTrace_cAcquire, h3]
    · simp only [countRelease] at h5 ⊢
      simp [countA_cons, countA_append, countA_nil, isReleaseOf, failTrace_cRelease, h5]
    · simp only [countOnConnect] at h1 ⊢
      simp [countA_cons, countA_append, countA_nil, isOnConnect, failTrace_cOnConnect, h1]

/-- Witness for `c3_connect_retry`: two unreachable candidates are both
attempted and `PostConnect` reports failure with the context released. -/
theorem c3_connect_retry_witness :
    ∃ r, PostConnect ⟨CState.CREATED, true, 0, 0⟩ true
        (List.replicate 2 SyncOutcome.syncFail) true SyncOutcome.pending = some r ∧
      r.ret = false ∧ connectAttempts r.trace = List.range 2 ∧
      countAcquire EvType.CONNECT r.trace = 1 ∧ countRelease EvType.CONNECT r.trace = 1 ∧
      countCancelIo r.trace = 2 ∧ countOnConnect r.trace = 0 ∧
      r.client.state = CState.CREATED ∧ r.outstanding = false :=
  (c3_connect_retry ⟨CState.CREATED, true, 0, 0⟩ true SyncOutcome.pending rfl rfl).1 2

/-- C2: a completion delivered for a client the Registry reports as not alive
releases the operation context and returns: the trace is exactly one pool
release, no handler runs, and the client is unchanged. -/
theorem c2_liveness_gate (c : Client) (t : EvType) (s : Bool) (b : Nat)
    (env : DispatchEnv) (h : env.alive = false) :
    IoCompletionCallback c t s b env =
      some { client := c, trace := [Action.release t], ret := true, outstanding := false } := by
  simp [IoCompletionCallback, h]

/-- Witness for `c2_liveness_gate` at a concrete dead-client completion. -/
theorem c2_liveness_gate_witness :
    (({ alive := false, retryConnect := SyncOutcome.pending, sockoptOk := true,
        recvOut := SyncOutcome.pending } : DispatchEnv).alive = false) ∧
    IoCompletionCallback ⟨CState.CONNECTED, true, 0, 0⟩ EvType.RECV true 5
        { alive := false, retryConnect := SyncOutcome.pending, sockoptOk := true,
          recvOut := SyncOutcome.pending } =
      some { client := ⟨CState.CONNECTED, true, 0, 0⟩, trace := [Action.release EvType.RECV],
             ret := true, outstanding := false } :=
  ⟨rfl, c2_liveness_gate _ _ _ _ _ rfl⟩

/-- C1 (violated): on `PostReceive`'s synchronous-failure path the code cancels
the threadpool notification and requests removal but never calls
`IOEvent::Destroy` on the context it acquired — the RECV context is acquired
once, released zero times, and no completion remains outstanding that could
ever release it.  (`PostSend`'s synchronous-failure path leaks identically.) -/
theorem c1_postReceive_context_leak :
    ∃ r, PostReceive ⟨CState.CREATED, true, 0, 0⟩ SyncOutcome.syncFail = some r ∧
      countAcquire EvType.RECV r.trace = 1 ∧ countReleaseAll r.trace = 0 ∧
      r.outstanding = false ∧ Action.cancelIo ∈ r.trace ∧ Action.postRemove ∈ r.trace :=
  ⟨_, rfl, by decide, by decide, by decide, by decide, by decide⟩

/-- C7 (violated): when socket creation succeeds but the `SO_REUSEADDR`
`setsockopt` fails, `Create` returns `false` with the state still WAIT but
with the created socket still stored in the client; the retained socket then
makes a retry of `Create` trip its own `assert(m_Socket == INVALID_SOCKET)`. -/
theorem c7_create_socket_retained :
    ∃ r, Create ⟨CState.WAIT, false, 0, 0⟩ ⟨true, false, true⟩ = some r ∧
      r.ret = false ∧ r.client.state = CState.WAIT ∧ r.client.socketValid = true ∧
      Create r.client ⟨true, true, true⟩ = none :=
  ⟨_, rfl, by decide, by decide, by decide, by decide⟩

/-- C9 (violated): `OnRecv` writes its NUL terminator at index `n` of
`m_recvBuffer`; a receive completion may deliver as many bytes as
`PostReceive` advertised, and at `n = advertisedRecvLen = MAX_RECV_BUFFER`
the write lands one past the last valid index of the buffer. -/
theorem c9_nul_write_oob :
    ∃ pr, OnRecv ⟨CState.CONNECTED, true, 0, 0⟩ advertisedRecvLen SyncOutcome.pending = some pr ∧
      Action.nulWrite advertisedRecvLen ∈ pr.2 ∧ ¬ recvWriteInBounds advertisedRecvLen :=
  ⟨_, rfl, by decide, by unfold recvWriteInBounds advertisedRecvLen; omega⟩

/-- C4 (violated ordering): on an asynchronous connect failure with a next
candidate whose synchronous retry also fails, the dispatcher issues the next
`ConnectEx` without ever having called `StartThreadpoolIo` — the re-arm the
claim places before the attempt never happens (the code arms only after the
attempt, and only in the pending case); removal is requested and the context
released exactly once. -/
theorem c4_retry_rearm_order :
    ∃ r, IoCompletionCallback ⟨CState.CREATED, true, 0, 2⟩ EvType.CONNECT false 0
        ⟨true, SyncOutcome.syncFail, true, SyncOutcome.syncSuccess⟩ = some r ∧
      r.trace = [Action.logError, Action.connectEx 1, Action.logError, Action.postRemove,
                 Action.release EvType.CONNECT] ∧
      Action.startIo ∉ r.trace ∧ Action.postRemove ∈ r.trace ∧
      countReleaseAll r.trace = 1 ∧ r.client.cursor = 1 :=
  ⟨_, rfl, by decide, by decide, by decide, by decide, by decide⟩

/-- C8 counterexample: with the client Connected and a caller length one past
the send buffer's capacity, the unguarded `memcpy` writes index
`MAX_SEND_BUFFER`, which is not within the buffer's bounds. -/
theorem c8_unguarded_copy_cex :
    MAX_SEND_BUFFER ∈
      (PostSend ⟨CState.CONNECTED, true, 0, 0⟩ (MAX_SEND_BUFFER + 1) SyncOutcome.pending).writes ∧
    ¬ MAX_SEND_BUFFER < MAX_SEND_BUFFER := by
  constructor
  · simp [PostSend, List.mem_range]
  · omega

/-- C8 amended: `PostSend` is a no-op unless the state is Connected; in state
Connected the copy into `sendBuffer` is not guarded — it writes exactly the
indices below `size`, and those all fall within a capacity `cap` exactly when
`size ≤ cap`. -/
theorem c8_send_copy_bounds (c : Client) (size : Nat) (out : SyncOutcome) (cap : Nat) :
    (c.state ≠ CState.CONNECTED →
      PostSend c size out = { client := c, trace := [], ret := true, outstanding := false }) ∧
    (c.state = CState.CONNECTED →
      (PostSend c size out).writes = List.range size ∧
      ((∀ i ∈ (PostSend c size out).writes, i < cap) ↔ size ≤ cap)) := by
  constructor
  · intro h
    simp [PostSend, h]
  · intro h
    refine ⟨by simp [PostSend, h], ?_⟩
    simp only [PostSend, h]
    simp only [ne_eq, not_true_eq_false, if_false]
    constructor
    · intro hall
      by_contra hlt
      push_neg at hlt
      have := hall cap (by simp [List.mem_range]; omega)
      omega
    · intro hle i hi
      simp [List.mem_range] at hi
      omega

/-- Witness for `c8_send_copy_bounds`: a Connected client sending 3 bytes
into capacity 4 stays in bounds. -/
theorem c8_send_copy_bounds_witness :
    (∀ i ∈ (PostSend ⟨CState.CONNECTED, true, 0, 0⟩ 3 SyncOutcome.pending).writes, i < 4) ↔
      3 ≤ 4 :=
  ((c8_send_copy_bounds ⟨CState.CONNECTED, true, 0, 0⟩ 3 SyncOutcome.pending 4).2 rfl).2

/-- Relates a client to any client reachable from it by handler-driven
updates that do not pass through `Close`: the socket field is untouched and
the state either stays put or is promoted Created → Connected by the first
successful receive posting. -/
def statePromo (a b : Client) : Prop :=
  b.socketValid = a.socketValid ∧
    (b.state = a.state ∨ (a.state = CState.CREATED ∧ b.state = CState.CONNECTED))

theorem statePromo_refl (a : Client) : statePromo a a := ⟨rfl, Or.inl rfl⟩

theorem statePromo_cursor (a : Client) (j m : Nat) :
    statePromo a { a with cursor := j, nCand := m } := ⟨rfl, Or.inl rfl⟩

theorem statePromo_cursor' (a : Client) (j : Nat) :
    statePromo a { a with cursor := j } := ⟨rfl, Or.inl rfl⟩

theorem statePromo_trans {a b c : Client} (h1 : statePromo a b) (h2 : statePromo b c) :
    statePromo a c := by
  obtain ⟨hs1, hd1⟩ := h1
  obtain ⟨hs2, hd2⟩ := h2
  refine ⟨hs2.trans hs1, ?_⟩
  rcases hd1 with h | ⟨ha, hb⟩
  · rcases hd2 with h' | ⟨hb', hc⟩
    · exact Or.inl (h'.trans h)
    · exact Or.inr ⟨h ▸ hb', hc⟩
  · rcases hd2 with h' | ⟨hb', hc⟩
    · exact Or.inr ⟨ha, h'.trans hb⟩
    · rw [hb] at hb'
      exact absurd hb' (by decide)

theorem statePromo_mono {a b : Client} (h : statePromo a b) :
    ord a.state ≤ ord b.state := by
  rcases h.2 with h' | ⟨ha, hb⟩
  · rw [h']
  · rw [ha, hb]
    decide

theorem statePromo_closed {a b : Client} (h : statePromo a b)
    (hc : b.state = CState.CLOSED) : a.state = CState.CLOSED := by
  rcases h.2 with h' | ⟨ha, hb⟩
  · rw [← h', hc]
  · rw [hc] at hb
    exact absurd hb (by decide)

theorem PostReceive_shape (c : Client) (ro : SyncOutcome) (r : OpResult)
    (h : PostReceive c ro = some r) :
    r.client = c ∨
      (c.state = CState.CREATED ∧ r.client = { c with state := CState.CONNECTED }) := by
  by_cases h1 : c.state = CState.CLOSED
  · simp [PostReceive, h1] at h
    exact Or.inl (by rw [← h])
  · by_cases h2 : c.state = CState.WAIT
    · simp [PostReceive, h1, h2] at h
    · by_cases h3 : ro = SyncOutcome.syncFail
      · simp [PostReceive, h1, h2, h3] at h
        exact Or.inl (by rw [← h])
      · simp [PostReceive, h1, h2, h3] at h
        by_cases h4 : c.state = CState.CREATED
        · refine Or.inr ⟨h4, ?_⟩
          rw [← h]
          simp [h4]
        · refine Or.inl ?_
          rw [← h]
          simp [h4]

theorem PostReceive_promo (c : Client) (ro : SyncOutcome) (r : OpResult)
    (h : PostReceive c ro = some r) : statePromo c r.client := by
  rcases PostReceive_shape c ro r h with h' | ⟨hcr, h'⟩
  · rw [h']
    exact statePromo_refl c
  · rw [h']
    exact ⟨rfl, Or.inr ⟨hcr, rfl⟩⟩

theorem OnConnect_promo (c : Client) (so : Bool) (ro : SyncOutcome)
    (pr : Client × List Action) (h : OnConnect c so ro = some pr) :
    statePromo c pr.1 := by
  unfold OnConnect at h
  cases so with
  | true =>
    rw [if_pos rfl, Option.map_eq_some'] at h
    obtain ⟨r, hr, hf⟩ := h
    subst hf
    exact PostReceive_promo c ro r hr
  | false =>
    rw [if_neg (by simp), Option.some.injEq] at h
    subst h
    exact statePromo_refl c

theorem OnRecv_promo (c : Client) (n : Nat) (ro : SyncOutcome)
    (pr : Client × List Action) (h : OnRecv c n ro = some pr) :
    statePromo c pr.1 := by
  unfold OnRecv at h
  rw [Option.map_eq_some'] at h
  obtain ⟨r, hr, hf⟩ := h
  subst hf
  exact PostReceive_promo c ro r hr

theorem connectLoop_promo (so : Bool) (ro : SyncOutcome) (c : Client)
    (outs : List SyncOutcome) (i : Nat) (r : OpResult)
    (h : connectLoop so ro c outs i = some r) : statePromo c r.client := by
  induction outs generalizing i r with
  | nil =>
    simp only [connectLoop, Option.some.injEq] at h
    subst h
    exact ⟨rfl, Or.inl rfl⟩
  | cons o rest ih =>
    cases o with
    | syncFail =>
      rw [connectLoop_cons_fail, Option.map_eq_some'] at h
      obtain ⟨r', hr', hf⟩ := h
      subst hf
      exact ih (i + 1) r' hr'
    | pending =>
      simp only [connectLoop, Option.some.injEq] at h
      subst h
      exact ⟨rfl, Or.inl rfl⟩
    | syncSuccess =>
      simp only [connectLoop, Option.map_eq_some'] at h
      obtain ⟨pr, hpr, hf⟩ := h
      subst hf
      exact statePromo_trans (statePromo_cursor' c i)
        (OnConnect_promo { c with cursor := i } so ro pr hpr)

theorem PostConnect_promo (c : Client) (rok : Bool) (outs : List SyncOutcome)
    (so : Bool) (ro : SyncOutcome) (r : OpResult)
    (h : PostConnect c rok outs so ro = some r) : statePromo c r.client := by
  unfold PostConnect at h
  by_cases h1 : c.state = CState.CREATED
  · rw [if_neg (by simp [h1])] at h
    by_cases h2 : c.socketValid = true
    · rw [if_neg (by simp [h2])] at h
      cases rok with
      | true =>
        rw [if_neg (by simp), Option.map_eq_some'] at h
        obtain ⟨r', hr', hf⟩ := h
        subst hf
        exact statePromo_trans (statePromo_cursor c 0 outs.length)
          (connectLoop_promo so ro _ outs 0 r' hr')
      | false =>
        rw [if_pos (by simp), Option.some.injEq] at h
        subst h
        exact statePromo_refl c
    · rw [if_pos (by simpa using h2)] at h
      exact absurd h (by simp)
  · rw [if_pos (by simp [h1]), Option.some.injEq] at h
    subst h
    exact statePromo_refl c

theorem IoCompletionCallback_promo (c : Client) (t : EvType) (s : Bool) (b : Nat)
    (env : DispatchEnv) (r : OpResult)
    (h : IoCompletionCallback c t s b env = some r) : statePromo c r.client := by
  unfold IoCompletionCallback at h
  by_cases ha : env.alive = true
  · rw [if_neg (by simp [ha])] at h
    cases s with
    | true =>
      rw [if_pos rfl] at h
      by_cases ht1 : t = EvType.CONNECT
      · rw [if_pos ht1, Option.map_eq_some'] at h
        obtain ⟨pr, hpr, hf⟩ := h
        subst hf
        exact OnConnect_promo c env.sockoptOk env.recvOut pr hpr
      · rw [if_neg ht1] at h
        by_cases ht2 : t = EvType.RECV
        · rw [if_pos ht2] at h
          by_cases hb : b > 0 ∧ c.state ≠ CState.CLOSED
          · rw [if_pos hb, Option.map_eq_some'] at h
            obtain ⟨pr, hpr, hf⟩ := h
            subst hf
            exact OnRecv_promo c b env.recvOut pr hpr
          · rw [if_neg hb, Option.some.injEq] at h
            subst h
            exact statePromo_refl c
        · rw [if_neg ht2, Option.some.injEq] at h
          subst h
          exact statePromo_refl c
    | false =>
      rw [if_neg (by simp)] at h
      by_cases ht1 : t = EvType.CONNECT
      · rw [if_pos ht1] at h
        by_cases hc1 : c.cursor < c.nCand
        · rw [if_pos hc1] at h
          by_cases hc2 : c.cursor + 1 < c.nCand
          · rw [if_pos hc2] at h
            by_cases hr1 : env.retryConnect = SyncOutcome.syncSuccess
            · rw [if_pos hr1, Option.map_eq_some'] at h
              obtain ⟨pr, hpr, hf⟩ := h
              subst hf
              exact statePromo_trans ⟨rfl, Or.inl rfl⟩
                (OnConnect_promo { c with cursor := c.cursor + 1 }
                  env.sockoptOk env.recvOut pr hpr)
            · rw [if_neg hr1] at h
              by_cases hr2 : env.retryConnect = SyncOutcome.pending
              · rw [if_pos hr2, Option.some.injEq] at h
                subst h
                exact ⟨rfl, Or.inl rfl⟩
              · rw [if_neg hr2, Option.some.injEq] at h
                subst h
                exact ⟨rfl, Or.inl rfl⟩
          · rw [if_neg hc2, Option.some.injEq] at h
            subst h
            exact ⟨rfl, Or.inl rfl⟩
        · rw [if_neg hc1] at h
          exact absurd h (by simp)
      · rw [if_neg ht1, Option.some.injEq] at h
        subst h
        exact statePromo_refl c
  · rw [if_pos (by simp [ha]), Option.some.injEq] at h
    subst h
    exact statePromo_refl c

theorem Create_cases (c : Client) (e : CreateEnv) (r : OpResult)
    (h : Create c e = some r) :
    r.client = c ∨ r.client = { c with socketValid := true } ∨
      (c.state = CState.WAIT ∧
        r.client = { c with socketValid := true, state := CState.CREATED }) := by
  unfold Create at h
  by_cases h1 : c.socketValid = true
  · rw [if_pos h1] at h
    exact absurd h (by simp)
  · rw [if_neg h1] at h
    by_cases h2 : c.state = CState.WAIT
    · rw [if_neg (by simp [h2])] at h
      cases e3 : e.socketOk with
      | false =>
        rw [e3, if_pos (by simp), Option.some.injEq] at h
        subst h
        exact Or.inl rfl
      | true =>
        rw [e3, if_neg (by simp)] at h
        cases e4 : e.sockoptOk with
        | false =>
          rw [e4, if_pos (by simp), Option.some.injEq] at h
          subst h
          exact Or.inr (Or.inl rfl)
        | true =>
          rw [e4, if_neg (by simp)] at h
          cases e5 : e.tpioOk with
          | false =>
            rw [e5, if_pos (by simp), Option.some.injEq] at h
            subst h
            exact Or.inr (Or.inl rfl)
          | true =>
            rw [e5, if_neg (by simp), Option.some.injEq] at h
            subst h
            exact Or.inr (Or.inr ⟨h2, rfl⟩)
    · rw [if_pos (by simp [h2])] at h
      exact absurd h (by simp)

theorem PostSend_client (c : Client) (size : Nat) (out : SyncOutcome) :
    (PostSend c size out).client = c := by
  unfold PostSend
  split <;> rfl

theorem Shutdown_client (c : Client) (ok : Bool) (r : OpResult)
    (h : Shutdown c ok = some r) : r.client = c := by
  unfold Shutdown at h
  by_cases h1 : c.state = CState.CONNECTED
  · rw [if_neg (by simp [h1])] at h
    by_cases h2 : c.socketValid = true
    · rw [if_neg (by simp [h2])] at h
      cases ok with
      | true =>
        rw [if_pos rfl, Option.some.injEq] at h
        subst h
        rfl
      | false =>
        rw [if_neg (by simp), Option.some.injEq] at h
        subst h
        rfl
    · rw [if_pos (by simpa using h2)] at h
      exact absurd h (by simp)
  · rw [if_pos (by simp [h1]), Option.some.injEq] at h
    subst h
    rfl


theorem ord_le_closed (s : CState) : ord s ≤ ord CState.CLOSED := by
  cases s <;> decide

theorem stepT_state_mono (c : Client) (o : Op) (r : OpResult)
    (h : stepT c o = some r) : ord c.state ≤ ord r.client.state := by
  cases o with
  | create e =>
    rcases Create_cases c e r h with h' | h' | ⟨hw, h'⟩
    · rw [h']
    · rw [h']
    · rw [h', hw]
      show ord CState.WAIT ≤ ord CState.CREATED
      decide
  | postConnect rok outs so ro => exact statePromo_mono (PostConnect_promo c rok outs so ro r h)
  | postReceive ro => exact statePromo_mono (PostReceive_promo c ro r h)
  | postSend size out =>
    have h' : r = PostSend c size out := by
      simp only [stepT, Option.some.injEq] at h
      rw [h]
    rw [h', PostSend_client]
  | shutdownOp ok =>
    rw [Shutdown_client c ok r h]
  | close =>
    have h' : r = Close c := by
      simp only [stepT, Option.some.injEq] at h
      rw [h]
    rw [h']
    unfold Close
    split
    · exact ord_le_closed c.state
    · exact le_refl _
  | dispatch t s b env => exact statePromo_mono (IoCompletionCallback_promo c t s b env r h)

theorem stepT_closed_only (c : Client) (o : Op) (r : OpResult)
    (h : stepT c o = some r) (hc : r.client.state = CState.CLOSED) :
    c.state = CState.CLOSED ∨ o = Op.close := by
  cases o with
  | create e =>
    rcases Create_cases c e r h with h' | h' | ⟨hw, h'⟩
    · rw [h'] at hc
      exact Or.inl hc
    · rw [h'] at hc
      exact Or.inl hc
    · rw [h'] at hc
      simp at hc
  | postConnect rok outs so ro =>
    exact Or.inl (statePromo_closed (PostConnect_promo c rok outs so ro r h) hc)
  | postReceive ro => exact Or.inl (statePromo_closed (PostReceive_promo c ro r h) hc)
  | postSend size out =>
    have h' : r = PostSend c size out := by
      simp only [stepT, Option.some.injEq] at h
      rw [h]
    rw [h', PostSend_client] at hc
    exact Or.inl hc
  | shutdownOp ok =>
    rw [Shutdown_client c ok r h] at hc
    exact Or.inl hc
  | close => exact Or.inr rfl
  | dispatch t s b env =>
    exact Or.inl (statePromo_closed (IoCompletionCallback_promo c t s b env r h) hc)

theorem stepT_socket_only (c : Client) (o : Op) (r : OpResult)
    (h : stepT c o = some r) (hc : r.client.socketValid = false) :
    c.socketValid = false ∨ o = Op.close := by
  cases o with
  | create e =>
    rcases Create_cases c e r h with h' | h' | ⟨hw, h'⟩
    · rw [h'] at hc
      exact Or.inl hc
    · rw [h'] at hc
      simp at hc
    · rw [h'] at hc
      simp at hc
  | postConnect rok outs so ro =>
    exact Or.inl ((PostConnect_promo c rok outs so ro r h).1 ▸ hc)
  | postReceive ro => exact Or.inl ((PostReceive_promo c ro r h).1 ▸ hc)
  | postSend size out =>
    have h' : r = PostSend c size out := by
      simp only [stepT, Option.some.injEq] at h
      rw [h]
    rw [h', PostSend_client] at hc
    exact Or.inl hc
  | shutdownOp ok =>
    rw [Shutdown_client c ok r h] at hc
    exact Or.inl hc
  | close => exact Or.inr rfl
  | dispatch t s b env =>
    exact Or.inl ((IoCompletionCallback_promo c t s b env r h).1 ▸ hc)

/-- C6: over any sequence of `Create`, `PostConnect`, `PostReceive`,
`PostSend`, `Shutdown`, `Close` calls and completion dispatches that runs
without tripping an assert, the client's state only moves forward along
Idle → Created → Connected → Closed, never backward. -/
theorem c6_state_monotone (c : Client) (ops : List Op) (c' : Client)
    (h : runOps c ops = some c') : ord c.state ≤ ord c'.state := by
  induction ops generalizing c with
  | nil =>
    simp only [runOps, Option.some.injEq] at h
    rw [h]
  | cons o rest ih =>
    simp only [runOps, Option.bind_eq_some] at h
    obtain ⟨c1, hs, hrest⟩ := h
    simp only [step, Option.map_eq_some'] at hs
    obtain ⟨r, hr, hc⟩ := hs
    have h1 : ord c.state ≤ ord c1.state := hc ▸ stepT_state_mono c o r hr
    exact le_trans h1 (ih c1 hrest)

/-- Witness for `c6_state_monotone`: create, connect synchronously, close. -/
theorem c6_state_monotone_witness :
    runOps ⟨CState.WAIT, false, 0, 0⟩
        [Op.create ⟨true, true, true⟩,
         Op.postConnect true [SyncOutcome.syncSuccess] true SyncOutcome.pending,
         Op.close] = some ⟨CState.CLOSED, false, 0, 1⟩ ∧
    ord CState.WAIT ≤ ord CState.CLOSED :=
  ⟨by decide,
   c6_state_monotone ⟨CState.WAIT, false, 0, 0⟩
     [Op.create ⟨true, true, true⟩,
      Op.postConnect true [SyncOutcome.syncSuccess] true SyncOutcome.pending,
      Op.close] ⟨CState.CLOSED, false, 0, 1⟩ (by decide)⟩

/-- C5: on a successful receive completion for a live client, if the bytes
transferred are positive and the state is not Closed (nor Idle, where the
assert would fire) the receive handler runs first and re-posts a receive
(`WSARecv` occurs inside the handler), the close handler does not run, and
the dispatcher releases the context after the handler; if zero bytes are
reported (or the state is already Closed) the close handler runs, deferred
removal is requested, the context is released, and no error is logged — the
zero-length receive is not treated as a transport error. -/
theorem c5_recv_completion (c : Client) (n : Nat) (env : DispatchEnv)
    (halive : env.alive = true) :
    (n > 0 → c.state ≠ CState.CLOSED → c.state ≠ CState.WAIT →
      ∃ pr, OnRecv c n env.recvOut = some pr ∧
        IoCompletionCallback c EvType.RECV true n env =
          some { client := pr.1, trace := pr.2 ++ [Action.release EvType.RECV],
                 ret := true, outstanding := false } ∧
        pr.2.head? = some (Action.onRecvH n) ∧ Action.wsaRecv ∈ pr.2 ∧
        Action.onCloseH ∉ pr.2) ∧
    ((n = 0 ∨ c.state = CState.CLOSED) →
      ∃ r, IoCompletionCallback c EvType.RECV true n env = some r ∧
        r.client = c ∧
        r.trace = [Action.onCloseH, Action.postRemove, Action.release EvType.RECV] ∧
        Action.logError ∉ r.trace ∧ Action.postRemove ∈ r.trace) := by
  constructor
  · intro hn hcl hw
    obtain ⟨pr, hpr, hhead, hmem, hnocl⟩ :
        ∃ pr, OnRecv c n env.recvOut = some pr ∧
          pr.2.head? = some (Action.onRecvH n) ∧ Action.wsaRecv ∈ pr.2 ∧
          Action.onCloseH ∉ pr.2 := by
      by_cases hro : env.recvOut = SyncOutcome.syncFail
      · refine ⟨(c, [Action.onRecvH n, Action.nulWrite n, Action.acquire EvType.RECV,
            Action.startIo, Action.wsaRecv, Action.cancelIo, Action.logError,
            Action.postRemove]),
          by simp [OnRecv, PostReceive, hcl, hw, hro], rfl, by simp, by simp⟩
      · refine ⟨(if c.state = CState.CREATED then { c with state := CState.CONNECTED } else c,
            [Action.onRecvH n, Action.nulWrite n, Action.acquire EvType.RECV,
             Action.startIo, Action.wsaRecv]),
          by simp [OnRecv, PostReceive, hcl, hw, hro], rfl, by simp, by simp⟩
    refine ⟨pr, hpr, ?_, hhead, hmem, hnocl⟩
    simp [IoCompletionCallback, halive, hn, hcl, hpr]
  · intro h0
    have heq : IoCompletionCallback c EvType.RECV true n env =
        some { client := c,
               trace := [Action.onCloseH, Action.postRemove, Action.release EvType.RECV],
               ret := true, outstanding := false } := by
      rcases h0 with h0 | h0
      · subst h0
        simp [IoCompletionCallback, halive, OnClose]
      · simp [IoCompletionCallback, halive, OnClose, h0]
    exact ⟨_, heq, rfl, rfl, by simp, by simp⟩

/-- Witness for `c5_recv_completion`: a Connected client receiving 4 bytes. -/
theorem c5_recv_completion_witness :
    ∃ pr, OnRecv ⟨CState.CONNECTED, true, 0, 0⟩ 4 SyncOutcome.pending = some pr ∧
      IoCompletionCallback ⟨CState.CONNECTED, true, 0, 0⟩ EvType.RECV true 4
          { alive := true, retryConnect := SyncOutcome.pending, sockoptOk := true,
            recvOut := SyncOutcome.pending } =
        some { client := pr.1, trace := pr.2 ++ [Action.release EvType.RECV],
               ret := true, outstanding := false } ∧
      pr.2.head? = some (Action.onRecvH 4) ∧ Action.wsaRecv ∈ pr.2 ∧
      Action.onCloseH ∉ pr.2 :=
  (c5_recv_completion ⟨CState.CONNECTED, true, 0, 0⟩ 4
    { alive := true, retryConnect := SyncOutcome.pending, sockoptOk := true,
      recvOut := SyncOutcome.pending } rfl).1 (by decide) (by decide) (by decide)

/-- C10: the close handler invoked on a zero-length receive changes no field
of the client — the dispatcher's zero-byte path returns the client unchanged
(no state change, no socket release) — and across every operation the state
becomes Closed, or the socket handle is dropped, only through an explicit
`Close()` call. -/
theorem c10_close_frame :
    (∀ c : Client, (OnClose c).1 = c) ∧
    (∀ (c : Client) (env : DispatchEnv), env.alive = true →
      IoCompletionCallback c EvType.RECV true 0 env =
        some { client := c,
               trace := [Action.onCloseH, Action.postRemove, Action.release EvType.RECV],
               ret := true, outstanding := false }) ∧
    (∀ (c : Client) (o : Op) (r : OpResult), stepT c o = some r →
      (r.client.state = CState.CLOSED → c.state = CState.CLOSED ∨ o = Op.close) ∧
      (r.client.socketValid = false → c.socketValid = false ∨ o = Op.close)) := by
  refine ⟨fun c => rfl, fun c env halive => ?_, fun c o r h =>
    ⟨stepT_closed_only c o r h, stepT_socket_only c o r h⟩⟩
  simp [IoCompletionCallback, halive, OnClose]

/-- Witness for `c10_close_frame` at a Connected client and the `Close` op. -/
theorem c10_close_frame_witness :
    (OnClose ⟨CState.CONNECTED, true, 0, 0⟩).1 = ⟨CState.CONNECTED, true, 0, 0⟩ ∧
    IoCompletionCallback ⟨CState.CONNECTED, true, 0, 0⟩ EvType.RECV true 0
        { alive := true, retryConnect := SyncOutcome.pending, sockoptOk := true,
          recvOut := SyncOutcome.pending } =
      some { client := ⟨CState.CONNECTED, true, 0, 0⟩,
             trace := [Action.onCloseH, Action.postRemove, Action.release EvType.RECV],
             ret := true, outstanding := false } ∧
    (CState.CONNECTED = CState.CLOSED ∨ Op.close = Op.close) :=
  ⟨c10_close_frame.1 ⟨CState.CONNECTED, true, 0, 0⟩,
   c10_close_frame.2.1 ⟨CState.CONNECTED, true, 0, 0⟩ _ rfl,
   (c10_close_frame.2.2 ⟨CState.CONNECTED, true, 0, 0⟩ Op.close
      { client := ⟨CState.CLOSED, false, 0, 0⟩,
        trace := [Action.closeSocket, Action.cancelIoEx],
        ret := true, outstanding := false } (by decide)).1 (by decide)⟩

end IOCP
